import Mathlib

/-!
Verification of the core serving-engine components of a batched,
paged-attention LLM inference system, shallowly embedded in Lean.

The embedding follows the C++ sources:
* `src/engine/engine.cpp` (dtype parsing, KV-cache sizing, step dispatch),
* `src/models/model_registry.cpp` (process-wide model registry),
* `src/layers/linear_impl.cpp` (fused column-parallel weight loading),
* `src/models/huggingface/mpt.h` (fused QKV layout reshapes),
* `src/tokenizer/sentencepiece_tokenizer.cpp` (BOS prepending).

Machine integers (`int32_t`, `int64_t`) are modelled as `Int`; the C++
`/` on integers truncates toward zero and is modelled by `Int.tdiv`.
C++ `double` arithmetic on memory sizes is modelled exactly over `ℚ`,
with `static_cast<int64_t>` modelled as truncation toward zero.
Aborting checks (`CHECK`, `GCHECK`) are modelled as `Option`/failure.
-/

namespace llm

/-- Device kinds relevant to the engine; `engine.cpp` only supports CPU
and CUDA devices (`GCHECK(false)` otherwise). -/
inductive Device
  | cpu
  | cuda
deriving DecidableEq, Repr

/-- Scalar types produced by `parse_dtype`.  In libtorch `kHalf` and
`kFloat16` denote the same 16-bit float scalar type, so a single
constructor `half` models both. -/
inductive ScalarType
  | float32
  | half
  | bfloat16
deriving DecidableEq, Repr

/-- ASCII lower-casing of one character, as C `tolower` in the default
locale acts on the strings the engine compares. -/
def ascii_tolower (c : Char) : Char :=
  if 'A' ≤ c ∧ c ≤ 'Z' then Char.ofNat (c.toNat + 32) else c

/-- Model of `boost::iequals`: case-insensitive string equality,
character by character. -/
def iequals (a b : String) : Bool :=
  a.data.map ascii_tolower == b.data.map ascii_tolower

/-- Model of the anonymous-namespace helper `parse_dtype` in
`src/engine/engine.cpp` (lines 29-52).  `none` models the aborting
`GCHECK(false)` on an unsupported dtype string. -/
def parse_dtype (dtype_str : String) (device : Device) : Option ScalarType :=
  if device = Device.cpu then
    some ScalarType.float32
  else if iequals dtype_str "half" || iequals dtype_str "float16" then
    some ScalarType.half
  else if iequals dtype_str "bfloat16" then
    some ScalarType.bfloat16
  else if iequals dtype_str "float" || iequals dtype_str "float32" then
    some ScalarType.float32
  else if dtype_str.isEmpty || iequals dtype_str "auto" then
    some ScalarType.half
  else
    none

/-- Truncation of an exact rational toward zero, modelling
`static_cast<int64_t>` applied to a non-negative C++ `double` product. -/
def double_to_int64 (q : ℚ) : Int :=
  Int.tdiv q.num (q.den : Int)

/-- The engine configuration flags read by `Engine::init_kv_cache`:
`FLAGS_block_size`, `FLAGS_max_cache_size` and
`FLAGS_max_memory_utilization` from `src/engine/engine.cpp`. -/
structure EngineFlags where
  block_size : Int
  max_cache_size : Int
  max_memory_utilization : ℚ

/-- The model-argument fields consumed by `Engine::init_kv_cache`
(`src/models/args.h`): `n_heads`, optional `n_kv_heads`, `hidden_size`
and `n_layers`. -/
structure KVModelArgs where
  n_heads : Int
  n_kv_heads : Option Int
  hidden_size : Int
  n_layers : Int

/-- The result of a successful `Engine::init_kv_cache`: the number of
blocks handed to the `BlockManager` and the per-worker cache shapes
passed to `Worker::init_kv_cache`. -/
structure KVCachePlan where
  num_blocks : Int
  block_size : Int
  key_cache_shape : List Int
  value_cache_shape : List Int
deriving DecidableEq, Repr

/-- Model of `Engine::init_kv_cache` (`src/engine/engine.cpp`, lines
161-253).  The device-memory probes `memory::max_memory_allocated` and
`memory::total_memory` are external measurements and enter as the inputs
`allocated_bytes` and `total_memory`.  `none` models a failed
initialization (an aborting `CHECK_GT`).  Worker-side cache allocation
is outside this function. -/
def init_kv_cache (flags : EngineFlags) (args : KVModelArgs)
    (world_size dtype_size : Int) (device : Device)
    (allocated_bytes total_memory : Int) : Option KVCachePlan :=
  let block_size := flags.block_size
  let n_heads := args.n_heads
  let n_kv_heads := args.n_kv_heads.getD n_heads
  let n_local_kv_heads := n_kv_heads.tdiv world_size
  let head_dim := args.hidden_size.tdiv n_heads
  let block_size_in_bytes :=
    2 * block_size * n_local_kv_heads * head_dim * args.n_layers * dtype_size
  let x := Int.tdiv 16 dtype_size
  let mk_plan := fun (num_blocks : Int) =>
    ({ num_blocks := num_blocks
       block_size := block_size
       key_cache_shape :=
         [num_blocks, n_local_kv_heads, head_dim.tdiv x, block_size, x]
       value_cache_shape :=
         [num_blocks, n_local_kv_heads, head_dim, block_size] } : KVCachePlan)
  match device with
  | Device.cpu =>
      let num_blocks := flags.max_cache_size.tdiv block_size_in_bytes
      if 0 < num_blocks then some (mk_plan num_blocks) else none
  | Device.cuda =>
      let measured :=
        double_to_int64 ((total_memory : ℚ) * flags.max_memory_utilization) -
          allocated_bytes
      let max_cache_size :=
        if 0 < flags.max_cache_size then min measured flags.max_cache_size
        else measured
      if 0 < max_cache_size then
        let num_blocks := max_cache_size.tdiv block_size_in_bytes
        if 0 < num_blocks then some (mk_plan num_blocks) else none
      else none

/-- The spec formula
`block_size_in_bytes = 2 * B * n_local_kv_heads * head_dim * n_layers * dtype_size`
with `n_local_kv_heads = n_kv_heads / world_size`, `n_kv_heads`
defaulting to `n_heads` and `head_dim = hidden_size / n_heads`, stated
independently of `init_kv_cache` for comparison. -/
def spec_block_size_in_bytes (flags : EngineFlags) (args : KVModelArgs)
    (world_size dtype_size : Int) : Int :=
  2 * flags.block_size * ((args.n_kv_heads.getD args.n_heads).tdiv world_size) *
    (args.hidden_size.tdiv args.n_heads) * args.n_layers * dtype_size

/-- The spec formula for the accelerator cache budget:
`max_cache_size = total * memory_utilization - already_allocated`,
clamped by the configured byte cap whenever a cap is configured. -/
def spec_cuda_cache_budget (flags : EngineFlags)
    (allocated_bytes total_memory : Int) : Int :=
  let measured :=
    double_to_int64 ((total_memory : ℚ) * flags.max_memory_utilization) -
      allocated_bytes
  if 0 < flags.max_cache_size then min measured flags.max_cache_size
  else measured

/-- Modelled from the spec: `Utils::prepare_inputs` is not among the
excerpted sources; the spec states that prefill sequences are placed
first in the packed order and decode sequences second.  A batch is
abstracted to its per-sequence prefill flags; `packed_order` lists the
original positions in packed order. -/
def packed_order (batch : List Bool) : List Nat :=
  (List.range batch.length).filter (fun i => batch.getD i false) ++
    (List.range batch.length).filter (fun i => !(batch.getD i false))

/-- Modelled from the spec: the `seq_indices` permutation records, for
each position in the original batch, the position it ended up at in the
packed order. -/
def seq_indices (batch : List Bool) : List Nat :=
  (List.range batch.length).map (fun i => (packed_order batch).indexOf i)

/-- Model of `OutputParameters::index_select(seq_indices)` as used in
`Engine::execute_model`: entry `i` of the result is the packed output at
position `seq_indices[i]`. -/
def index_select (out : List α) (idx : List Nat) (d : α) : List α :=
  idx.map (fun j => out.getD j d)

/-- Whether a worker call in `Engine::execute_model` is the blocking
`execute_model` or the future-returning `execute_model_async`. -/
inductive CallKind
  | blocking
  | async
deriving DecidableEq, Repr

/-- Model of `Engine::execute_model` (`src/engine/engine.cpp`, lines
255-294).  A worker is a function from the prepared (packed) input to
its per-packed-position outputs; the tensor contents of the prepared
inputs are abstracted to the packed order itself, which the engine
passes identically to every worker.  The result records the trace of
worker calls (rank, prepared input, call kind) and the output returned
to the caller: the first (rank 0) worker's output reordered by
`seq_indices`.  `none` models an engine with no workers, which the
constructor rules out. -/
def engine_execute_model (workers : List (List Nat → List α))
    (batch : List Bool) (d : α) :
    Option (List (Nat × List Nat × CallKind) × List α) :=
  let po := packed_order batch
  let si := seq_indices batch
  match workers with
  | [] => none
  | [w] => some ([(0, po, CallKind.blocking)], index_select (w po) si d)
  | w :: r :: rest =>
      some ((List.range (w :: r :: rest).length).map
              (fun i => (i, po, CallKind.async)),
            index_select (w po) si d)

/-- The observable outcome of `Engine::init_model`: whether it returned
`true`, and whether the vocab-size-mismatch warning was logged. -/
structure InitModelResult where
  ok : Bool
  vocab_size_warning : Bool
deriving DecidableEq, Repr

/-- Model of `Engine::init_model` (`src/engine/engine.cpp`, lines
89-159) restricted to the state the claims observe.  The model loader,
weight streaming and weight verification are abstracted into
`worker_results`, the per-worker success bits of `init_model` on each
worker; `none` models the aborting `GCHECK` when `parse_dtype` rejects
the configured dtype string.  The vocab-size comparison at lines 100-104
only logs a warning. -/
def init_model (dtype_str : String) (device : Device)
    (tokenizer_vocab_size model_vocab_size : Int)
    (worker_results : List Bool) : Option InitModelResult :=
  match parse_dtype dtype_str device with
  | none => none
  | some _ =>
      some { ok := worker_results.all (fun b => b)
             vocab_size_warning := tokenizer_vocab_size != model_vocab_size }

/-- One entry of the model registry (`src/models/model_registry.h`):
the four per-model-name nullable factories/loaders.  `none` models a
default-constructed (null) `std::function`. -/
structure ModelMeta (F A Q D : Type) where
  causal_lm_factory : Option F
  model_args_loader : Option A
  quant_args_loader : Option Q
  dialog_factory : Option D

/-- The registry state: `std::unordered_map` keyed by model name, whose
`operator[]` default-constructs missing entries, is modelled as a total
function from names to entries. -/
def ModelRegistry (F A Q D : Type) : Type :=
  String → ModelMeta F A Q D

/-- The registry before any registration: every entry is null. -/
def empty_registry : ModelRegistry F A Q D :=
  fun _ => ⟨none, none, none, none⟩

/-- Point update of the registry map. -/
def registry_update (st : ModelRegistry F A Q D) (name : String)
    (m : ModelMeta F A Q D) : ModelRegistry F A Q D :=
  fun n => if n = name then m else st n

/-- Model of `ModelRegistry::register_causallm_factory`
(`src/models/model_registry.cpp`, lines 25-33): if an entry is already
stored under the name, only a warning is logged and the state is kept;
otherwise the (nullable) factory is stored. -/
def register_causallm_factory (name : String) (factory : Option F)
    (st : ModelRegistry F A Q D) : ModelRegistry F A Q D :=
  if (st name).causal_lm_factory.isSome then st
  else registry_update st name { st name with causal_lm_factory := factory }

/-- Model of `ModelRegistry::register_model_args_loader` (lines 35-43). -/
def register_model_args_loader (name : String) (loader : Option A)
    (st : ModelRegistry F A Q D) : ModelRegistry F A Q D :=
  if (st name).model_args_loader.isSome then st
  else registry_update st name { st name with model_args_loader := loader }

/-- Model of `ModelRegistry::register_quant_args_loader` (lines 45-53). -/
def register_quant_args_loader (name : String) (loader : Option Q)
    (st : ModelRegistry F A Q D) : ModelRegistry F A Q D :=
  if (st name).quant_args_loader.isSome then st
  else registry_update st name { st name with quant_args_loader := loader }

/-- Model of `ModelRegistry::register_dialog_factory` (lines 55-63). -/
def register_dialog_factory (name : String) (factory : Option D)
    (st : ModelRegistry F A Q D) : ModelRegistry F A Q D :=
  if (st name).dialog_factory.isSome then st
  else registry_update st name { st name with dialog_factory := factory }

/-- Model of `ModelRegistry::get_causallm_factory` (lines 65-68). -/
def get_causallm_factory (name : String) (st : ModelRegistry F A Q D) :
    Option F :=
  (st name).causal_lm_factory

/-- Model of `ModelRegistry::get_model_args_loader` (lines 70-73). -/
def get_model_args_loader (name : String) (st : ModelRegistry F A Q D) :
    Option A :=
  (st name).model_args_loader

/-- Model of `ModelRegistry::get_quant_args_loader` (lines 75-79). -/
def get_quant_args_loader (name : String) (st : ModelRegistry F A Q D) :
    Option Q :=
  (st name).quant_args_loader

/-- Model of `ModelRegistry::get_dialog_factory` (lines 81-84). -/
def get_dialog_factory (name : String) (st : ModelRegistry F A Q D) :
    Option D :=
  (st name).dialog_factory

/-- The contiguous chunk of `d` scalars at chunk index `k` of a flat
(row-major) tensor.  Chunks are the unit the MPT fused-QKV reshapes
permute: for the 1-D bias `[3 * n_heads * head_dim]` a chunk is one
head's `head_dim` scalars (`d = head_dim`); for the 2-D weight
`[3 * n_heads * head_dim, hidden_size]`, flattened row-major, a chunk is
one head's block of rows (`d = head_dim * hidden_size`). -/
def chunk (d : Nat) (t : List α) (k : Nat) : List α :=
  (t.drop (k * d)).take d

/-- Model of `MPTAttentionImpl::reshape_qkv_before_sharding`
(`src/models/huggingface/mpt.h`, lines 220-230):
`view({3, -1, d}).permute({1, 0, 2}).reshape(...)` maps the fused QKV
tensor from the `[3, n_heads, ...]` layout to `[n_heads, 3, ...]`:
output chunk `i` is input chunk `(i % 3) * n + i / 3`. -/
def reshape_qkv_before_sharding (n d : Nat) (t : List α) : List α :=
  ((List.range (n * 3)).map (fun i => chunk d t ((i % 3) * n + i / 3))).flatten

/-- Model of `MPTAttentionImpl::reshape_qkv_after_sharding`
(`src/models/huggingface/mpt.h`, lines 232-245):
`view({-1, 3, d}).permute({1, 0, 2}).reshape(...)` maps the fused QKV
tensor from the `[n_heads, 3, ...]` layout back to `[3, n_heads, ...]`:
output chunk `j` is input chunk `(j % n) * 3 + j / n`. -/
def reshape_qkv_after_sharding (n d : Nat) (t : List α) : List α :=
  ((List.range (3 * n)).map (fun j => chunk d t ((j % n) * 3 + j / n))).flatten

/-- The state of a `ColumnParallelLinearImpl` relevant to fused weight
loading (`src/layers/linear_impl.cpp`): the accumulated per-prefix
shards `weight_list_`, the registered `weight_` tensor (dimension 0
flattened, so concatenation along dim 0 is list append) and the
`is_loaded_` flag. -/
structure LinearLoadState (α : Type) where
  weight_list : List (Option (List α))
  weight : List α
  is_loaded : Bool
deriving DecidableEq, Repr

/-- Model of `ColumnParallelLinearImpl::load_weights` (lines 89-107): if
any shard is still undefined, return `false` and change nothing;
otherwise concatenate the shards along dimension 0, clear the shard
list and copy into the registered weight.  The aborting `CHECK_EQ` on a
size mismatch is `none`. -/
def load_weights (weight_list : List (Option (List α))) (weight : List α) :
    Option (Bool × List (Option (List α)) × List α) :=
  if weight_list.all Option.isSome then
    let merged := (weight_list.map (fun t => t.getD [])).flatten
    if weight.length = merged.length then some (true, [], merged) else none
  else some (false, weight_list, weight)

/-- The `weight_list_.resize(prefixes.size())` step of the fused
`load_state_dict` (line 65-67): grow the shard list with undefined
entries, never shrink. -/
def resize_weight_list (wl : List (Option (List α))) (k : Nat) :
    List (Option (List α)) :=
  if wl.length < k then wl ++ List.replicate (k - wl.length) none else wl

/-- The per-prefix loop of the fused `load_state_dict` (lines 69-81):
for each prefix in order, look up `prefix + "weight"` in the state dict
(`get_sharded_tensor` is abstracted to the lookup `sd`); a found shard
is stored at the prefix's slot, and the aborting
`CHECK(!weight_list_[i].defined())` on a doubly-loaded slot is `none`. -/
def fill_weight_list (sd : String → Option (List α)) (pfxs : List String)
    (wl : List (Option (List α))) : Option (List (Option (List α))) :=
  pfxs.enum.foldl
    (fun acc ip =>
      match acc with
      | none => none
      | some wl =>
          match sd (ip.2 ++ "weight") with
          | none => some wl
          | some w =>
              if (wl.getD ip.1 none).isSome then none
              else some (wl.set ip.1 (some w)))
    (some wl)

/-- Model of the fused-prefix overload of
`ColumnParallelLinearImpl::load_state_dict` (lines 62-87): resize the
shard list, fill it from the state dict, then attempt `load_weights`;
`is_loaded_` is set exactly when `load_weights` reports success. -/
def load_state_dict_fused (sd : String → Option (List α))
    (pfxs : List String) (st : LinearLoadState α) :
    Option (LinearLoadState α) :=
  match fill_weight_list sd pfxs (resize_weight_list st.weight_list pfxs.length) with
  | none => none
  | some wl =>
      match load_weights wl st.weight with
      | none => none
      | some (loaded, wl2, w2) =>
          some { weight_list := wl2, weight := w2
                 is_loaded := st.is_loaded || loaded }

/-- Model of a `SentencePieceTokenizer`
(`src/tokenizer/sentencepiece_tokenizer.cpp`): the external
`sentencepiece::SentencePieceProcessor` is abstracted to `proc`, the
partial encoding function (`none` models a failing `Encode` status),
together with its BOS id and the `prepend_bos` construction flag. -/
structure SentencePieceTokenizer where
  proc : String → Option (List Int)
  bos_id : Int
  prepend_bos : Bool

/-- Model of `SentencePieceTokenizer::encode` (lines 24-37): on
processor success the ids are returned, with exactly one BOS id
prepended at position 0 when `prepend_bos` is set; on processor failure
`encode` returns `false` (modelled as `none`). -/
def SentencePieceTokenizer.encode (tk : SentencePieceTokenizer)
    (text : String) : Option (List Int) :=
  match tk.proc text with
  | none => none
  | some ids => some (if tk.prepend_bos then tk.bos_id :: ids else ids)

end llm

/-- Truncating division of a nonpositive dividend by a nonnegative divisor
is nonpositive (the sign rule C++ integer division obeys). -/
theorem llm.tdiv_nonpos_of_nonpos_of_nonneg {a b : Int} (ha : a ≤ 0) (hb : 0 ≤ b) :
    a.tdiv b ≤ 0 := by
  have h := Int.tdiv_nonneg (Int.neg_nonneg.mpr ha) hb
  rw [Int.neg_tdiv] at h
  omega

/-- Claim C2: `parse_dtype` returns 32-bit float on CPU regardless of the
string; on a non-CPU device it returns 16-bit float exactly for strings
case-insensitively equal to "half" or "float16" or for the empty string or
"auto", bfloat16 exactly for "bfloat16", 32-bit float exactly for "float"
or "float32", and fails initialization for every other string. -/
theorem llm.parse_dtype_spec (s : String) (d : llm.Device) :
    (d = llm.Device.cpu → llm.parse_dtype s d = some llm.ScalarType.float32) ∧
    (d ≠ llm.Device.cpu →
      ((llm.parse_dtype s d = some llm.ScalarType.half ↔
          (llm.iequals s "half" ∨ llm.iequals s "float16" ∨ s = "" ∨ llm.iequals s "auto")) ∧
       (llm.parse_dtype s d = some llm.ScalarType.bfloat16 ↔ llm.iequals s "bfloat16") ∧
       (llm.parse_dtype s d = some llm.ScalarType.float32 ↔
          (llm.iequals s "float" ∨ llm.iequals s "float32")) ∧
       (llm.parse_dtype s d = none ↔
          ¬(llm.iequals s "half" ∨ llm.iequals s "float16" ∨ llm.iequals s "bfloat16" ∨
            llm.iequals s "float" ∨ llm.iequals s "float32" ∨ s = "" ∨
            llm.iequals s "auto")))) := by
  constructor
  · intro h
    subst h
    simp [llm.parse_dtype]
  · intro hd
    cases d with
    | cpu => exact absurd rfl hd
    | cuda =>
      by_cases h1 : llm.iequals s "half" <;>
      by_cases h2 : llm.iequals s "float16" <;>
      by_cases h3 : llm.iequals s "bfloat16" <;>
      by_cases h4 : llm.iequals s "float" <;>
      by_cases h5 : llm.iequals s "float32" <;>
      by_cases h6 : s = "" <;>
      by_cases h7 : llm.iequals s "auto" <;>
      simp_all +decide [llm.parse_dtype, llm.iequals, String.isEmpty_iff]

/-- Claim C2 witness: a concrete evaluation discharging the hypotheses of
`llm.parse_dtype_spec` at `s = "Half"`, `d = cuda`. -/
theorem llm.parse_dtype_spec_witness :
    llm.Device.cuda ≠ llm.Device.cpu ∧
    llm.parse_dtype "Half" llm.Device.cuda = some llm.ScalarType.half := by
  refine ⟨by decide, ?_⟩
  have h := (llm.parse_dtype_spec "Half" llm.Device.cuda).2 (by decide)
  exact h.1.mpr (Or.inl (by decide))

/-- Claim C1: KV-cache sizing at init.  On CPU the block count is the
configured byte cap divided by `block_size_in_bytes`, and initialization
fails exactly when that count is not positive (in particular whenever the
configured cap is not positive).  On an accelerator the budget is
`total * memory_utilization - already_allocated` clamped by the
configured cap, the block count is `budget / block_size_in_bytes`, and
initialization fails exactly when the budget or the count is not
positive. -/
theorem llm.kv_cache_sizing (flags : llm.EngineFlags) (args : llm.KVModelArgs)
    (ws ds alloc total : Int)
    (hbs : 0 < flags.block_size) (hlayers : 0 < args.n_layers) (hds : 0 < ds)
    (hlocal : 0 < (args.n_kv_heads.getD args.n_heads).tdiv ws)
    (hhd : 0 < args.hidden_size.tdiv args.n_heads) :
    ((llm.init_kv_cache flags args ws ds llm.Device.cpu alloc total).map
        llm.KVCachePlan.num_blocks =
      (if 0 < flags.max_cache_size.tdiv (llm.spec_block_size_in_bytes flags args ws ds)
       then some (flags.max_cache_size.tdiv (llm.spec_block_size_in_bytes flags args ws ds))
       else none)) ∧
    (flags.max_cache_size ≤ 0 →
      llm.init_kv_cache flags args ws ds llm.Device.cpu alloc total = none) ∧
    ((llm.init_kv_cache flags args ws ds llm.Device.cuda alloc total).map
        llm.KVCachePlan.num_blocks =
      (if 0 < llm.spec_cuda_cache_budget flags alloc total ∧
          0 < (llm.spec_cuda_cache_budget flags alloc total).tdiv
              (llm.spec_block_size_in_bytes flags args ws ds)
       then some ((llm.spec_cuda_cache_budget flags alloc total).tdiv
              (llm.spec_block_size_in_bytes flags args ws ds))
       else none)) ∧
    (llm.spec_cuda_cache_budget flags alloc total ≤ 0 →
      llm.init_kv_cache flags args ws ds llm.Device.cuda alloc total = none) := by
  have hbsb : 0 < llm.spec_block_size_in_bytes flags args ws ds := by
    have h2 : (0:Int) < 2 := by omega
    exact mul_pos (mul_pos (mul_pos (mul_pos (mul_pos h2 hbs) hlocal) hhd) hlayers) hds
  refine ⟨?_, ?_, ?_, ?_⟩
  · simp only [llm.init_kv_cache, llm.spec_block_size_in_bytes]
    split <;> simp
  · intro hneg
    have hle : flags.max_cache_size.tdiv (llm.spec_block_size_in_bytes flags args ws ds) ≤ 0 :=
      llm.tdiv_nonpos_of_nonpos_of_nonneg hneg (le_of_lt hbsb)
    simp only [llm.init_kv_cache, llm.spec_block_size_in_bytes] at *
    split
    · omega
    · rfl
  · by_cases hcap : 0 < flags.max_cache_size
    all_goals
      simp only [llm.init_kv_cache, llm.spec_cuda_cache_budget,
        llm.spec_block_size_in_bytes, hcap, if_true, if_false]
      split <;> (try split) <;> (try simp_all) <;> split <;>
        first
          | rfl
          | (exfalso; omega)
  · intro hneg
    by_cases hcap : 0 < flags.max_cache_size
    all_goals
      simp only [llm.init_kv_cache, llm.spec_cuda_cache_budget, hcap,
        if_true, if_false] at hneg ⊢
      rw [if_neg (not_lt.mpr hneg)]

/-- Claim C1 witness: the CPU branch evaluated on a concrete
configuration (block size 16, 10 MiB cap, 4 heads of dim 16, 2 layers,
2-byte dtype, world size 2) yields 2560 blocks, discharging the
positivity hypotheses of `llm.kv_cache_sizing`. -/
theorem llm.kv_cache_sizing_witness :
    (llm.init_kv_cache ⟨16, 10485760, (9:ℚ)/10⟩ ⟨4, some 4, 64, 2⟩ 2 2
        llm.Device.cpu 0 0).map llm.KVCachePlan.num_blocks = some 2560 := by
  have h := (llm.kv_cache_sizing ⟨16, 10485760, (9:ℚ)/10⟩ ⟨4, some 4, 64, 2⟩ 2 2 0 0
    (by decide) (by decide) (by decide) (by decide) (by decide)).1
  rw [h]
  decide

/-- Claim C3: whenever `init_kv_cache` succeeds, the key-cache shape is
`[N, n_local_kv_heads, head_dim / x, block_size, x]` with
`x = 16 / dtype_size` and the value-cache shape is
`[N, n_local_kv_heads, head_dim, block_size]`; with world size 2 the
second dimension of the key shape is `n_kv_heads / 2`. -/
theorem llm.kv_cache_shapes (flags : llm.EngineFlags) (args : llm.KVModelArgs)
    (ws ds alloc total : Int) (device : llm.Device) (plan : llm.KVCachePlan)
    (h : llm.init_kv_cache flags args ws ds device alloc total = some plan) :
    plan.key_cache_shape =
      [plan.num_blocks, (args.n_kv_heads.getD args.n_heads).tdiv ws,
       (args.hidden_size.tdiv args.n_heads).tdiv (Int.tdiv 16 ds),
       flags.block_size, Int.tdiv 16 ds] ∧
    plan.value_cache_shape =
      [plan.num_blocks, (args.n_kv_heads.getD args.n_heads).tdiv ws,
       args.hidden_size.tdiv args.n_heads, flags.block_size] ∧
    (ws = 2 →
      plan.key_cache_shape[1]? = some ((args.n_kv_heads.getD args.n_heads).tdiv 2)) := by
  cases device
  case cpu =>
    simp only [llm.init_kv_cache] at h
    split at h <;> cases h <;>
      exact ⟨rfl, rfl, fun hw => by subst hw; rfl⟩
  case cuda =>
    by_cases hcap : 0 < flags.max_cache_size <;>
      simp only [llm.init_kv_cache, hcap, if_true, if_false] at h <;>
      (repeat split at h) <;> cases h <;>
      exact ⟨rfl, rfl, fun hw => by subst hw; rfl⟩

/-- Claim C3 witness: the concrete configuration of the C1 witness
produces key shape `[2560, 2, 2, 16, 8]` and value shape
`[2560, 2, 16, 16]`, and its second key dimension is `4 / 2 = 2`. -/
theorem llm.kv_cache_shapes_witness :
    (⟨2560, 16, [2560, 2, 2, 16, 8], [2560, 2, 16, 16]⟩ :
        llm.KVCachePlan).key_cache_shape[1]? = some ((4:Int).tdiv 2) := by
  have h : llm.init_kv_cache ⟨16, 10485760, (9:ℚ)/10⟩ ⟨4, some 4, 64, 2⟩ 2 2
      llm.Device.cpu 0 0 =
      some ⟨2560, 16, [2560, 2, 2, 16, 8], [2560, 2, 16, 16]⟩ := by decide
  have h2 := (llm.kv_cache_shapes ⟨16, 10485760, (9:ℚ)/10⟩ ⟨4, some 4, 64, 2⟩
    2 2 0 0 llm.Device.cpu _ h).2.2 rfl
  simpa using h2

/-- Every original batch position occurs in the packed order. -/
theorem llm.mem_packed_order {batch : List Bool} {i : Nat}
    (hi : i < batch.length) : i ∈ llm.packed_order batch := by
  by_cases hb : batch.getD i false <;>
    simp [llm.packed_order, List.mem_filter, List.mem_range, hi, hb]

/-- Reordering a per-packed-position output by `seq_indices` restores the
original batch order. -/
theorem llm.index_select_packed (batch : List Bool) (f : Nat → α) (d : α) :
    llm.index_select ((llm.packed_order batch).map f) (llm.seq_indices batch) d =
      (List.range batch.length).map f := by
  unfold llm.index_select llm.seq_indices
  rw [List.map_map]
  apply List.map_congr_left
  intro i hi
  have hmem : i ∈ llm.packed_order batch :=
    llm.mem_packed_order (List.mem_range.mp hi)
  have hidx : (llm.packed_order batch).indexOf i <
      (llm.packed_order batch).length :=
    List.indexOf_lt_length.mpr hmem
  show ((llm.packed_order batch).map f).getD
      ((llm.packed_order batch).indexOf i) d = f i
  rw [List.getD_eq_getElem _ _ (by simpa using hidx), List.getElem_map,
    List.getElem_indexOf hidx]

/-- Claim C4: the `seq_indices` permutation produced by packing records
each original position's place in the packed order, and
`Engine::execute_model` reorders the rank-0 output by `seq_indices`, so
when the first worker produces one output per packed sequence the caller
receives one output per sequence in the caller-supplied batch order:
`unpermute(permute(σ)) = σ`. -/
theorem llm.output_round_trip (batch : List Bool) (f : Nat → α) (d : α)
    (w : List Nat → List α) (rest : List (List Nat → List α))
    (hw : ∀ po, w po = po.map f)
    (tr : List (Nat × List Nat × llm.CallKind)) (out : List α)
    (h : llm.engine_execute_model (w :: rest) batch d = some (tr, out)) :
    out = (List.range batch.length).map f := by
  cases rest with
  | nil =>
      simp only [llm.engine_execute_model] at h
      cases h
      rw [hw]
      exact llm.index_select_packed batch f d
  | cons r rest' =>
      simp only [llm.engine_execute_model] at h
      cases h
      rw [hw]
      exact llm.index_select_packed batch f d

/-- Claim C4 witness: a concrete two-sequence batch (decode first,
prefill second) with a single worker; the engine output lists the
per-sequence results in the caller order. -/
theorem llm.output_round_trip_witness :
    ([0, 10] : List Nat) = (List.range 2).map (fun i => 10 * i) := by
  have h := llm.output_round_trip [false, true] (fun i => 10 * i) 99
    (fun po => po.map (fun i => 10 * i)) [] (fun po => rfl)
    [(0, [1, 0], llm.CallKind.blocking)] [0, 10] rfl
  exact h

/-- Claim C5: with exactly one worker the engine performs a single
blocking `execute_model` call on that worker; with more than one worker
it passes the same prepared inputs to every worker's asynchronous
`execute_model`, the trace covers every rank, and the returned output is
the rank-0 worker's (reordered by `seq_indices`). -/
theorem llm.step_dispatch (w : List Nat → List α)
    (rest : List (List Nat → List α)) (batch : List Bool) (d : α) :
    (llm.engine_execute_model [w] batch d =
      some ([(0, llm.packed_order batch, llm.CallKind.blocking)],
        llm.index_select (w (llm.packed_order batch)) (llm.seq_indices batch) d)) ∧
    (rest ≠ [] →
      llm.engine_execute_model (w :: rest) batch d =
        some ((List.range (w :: rest).length).map
            (fun i => (i, llm.packed_order batch, llm.CallKind.async)),
          llm.index_select (w (llm.packed_order batch)) (llm.seq_indices batch) d)) := by
  refine ⟨rfl, ?_⟩
  intro hne
  cases rest with
  | nil => exact absurd rfl hne
  | cons r rest' => rfl

/-- Claim C5 witness: two concrete workers; the engine calls both
asynchronously with the same prepared input and returns the first
worker's output. -/
theorem llm.step_dispatch_witness :
    llm.engine_execute_model
        [fun po => po.map Nat.succ, fun po => po.map (fun j => j + 5)] [true] 0 =
      some ([(0, [0], llm.CallKind.async), (1, [0], llm.CallKind.async)], [1]) := by
  have h := (llm.step_dispatch (fun po => po.map Nat.succ)
    [fun po => po.map (fun j => j + 5)] [true] 0).2 (by simp)
  simpa using h

/-- Claim C6: a vocab-size mismatch between tokenizer and model makes
`Engine::init_model` log a warning and continue; the returned success
bit never depends on the two vocab sizes, a result is produced whenever
the dtype string parses, and the warning is logged exactly when the
sizes differ. -/
theorem llm.vocab_mismatch_warns_only (s : String) (d : llm.Device)
    (tv mv tv' mv' : Int) (ws : List Bool) :
    ((llm.init_model s d tv mv ws).isSome ↔ (llm.parse_dtype s d).isSome) ∧
    (∀ r, llm.init_model s d tv mv ws = some r →
      r.ok = ws.all (fun b => b) ∧ (r.vocab_size_warning = true ↔ tv ≠ mv)) ∧
    ((llm.init_model s d tv mv ws).map llm.InitModelResult.ok =
      (llm.init_model s d tv' mv' ws).map llm.InitModelResult.ok) := by
  unfold llm.init_model
  cases llm.parse_dtype s d with
  | none => simp
  | some dt =>
      refine ⟨by simp, ?_, by simp⟩
      intro r hr
      cases hr
      exact ⟨rfl, by simp [bne_iff_ne]⟩

/-- Claim C6 witness: with a mismatching pair of vocab sizes and a
parsing dtype string, `init_model` succeeds and the warning is set. -/
theorem llm.vocab_mismatch_warns_only_witness :
    llm.init_model "auto" llm.Device.cuda 32000 32768 [true] =
      some { ok := true, vocab_size_warning := true } ∧
    (32000 : Int) ≠ 32768 := by
  have he : llm.init_model "auto" llm.Device.cuda 32000 32768 [true] =
      some { ok := true, vocab_size_warning := true } := by decide
  have h := ((llm.vocab_mismatch_warns_only "auto" llm.Device.cuda
    32000 32768 0 0 [true]).2.1 { ok := true, vocab_size_warning := true }
    he).2.mp rfl
  exact ⟨he, h⟩

/-- Claim C8: the registry keeps the first registration: for each of the
four entry kinds, once a non-null entry is stored under a name a later
registration leaves the state unchanged; registering into an empty slot
stores the entry, and every `get_*` on a never-registered name returns
null. -/
theorem llm.registry_first_registration_wins {F A Q D : Type}
    (st : llm.ModelRegistry F A Q D) (name : String)
    (v : F) (w : Option F) (vA : A) (wA : Option A)
    (vQ : Q) (wQ : Option Q) (vD : D) (wD : Option D) :
    (llm.get_causallm_factory name st = some v →
      llm.register_causallm_factory name w st = st) ∧
    ((st name).causal_lm_factory = none →
      llm.get_causallm_factory name
        (llm.register_causallm_factory name (some v) st) = some v) ∧
    (llm.get_model_args_loader name st = some vA →
      llm.register_model_args_loader name wA st = st) ∧
    ((st name).model_args_loader = none →
      llm.get_model_args_loader name
        (llm.register_model_args_loader name (some vA) st) = some vA) ∧
    (llm.get_quant_args_loader name st = some vQ →
      llm.register_quant_args_loader name wQ st = st) ∧
    ((st name).quant_args_loader = none →
      llm.get_quant_args_loader name
        (llm.register_quant_args_loader name (some vQ) st) = some vQ) ∧
    (llm.get_dialog_factory name st = some vD →
      llm.register_dialog_factory name wD st = st) ∧
    ((st name).dialog_factory = none →
      llm.get_dialog_factory name
        (llm.register_dialog_factory name (some vD) st) = some vD) ∧
    (llm.get_causallm_factory name (llm.empty_registry (F := F) (A := A) (Q := Q) (D := D)) = none) ∧
    (llm.get_model_args_loader name (llm.empty_registry (F := F) (A := A) (Q := Q) (D := D)) = none) ∧
    (llm.get_quant_args_loader name (llm.empty_registry (F := F) (A := A) (Q := Q) (D := D)) = none) ∧
    (llm.get_dialog_factory name (llm.empty_registry (F := F) (A := A) (Q := Q) (D := D)) = none) := by
  refine ⟨?_, ?_, ?_, ?_, ?_, ?_, ?_, ?_, rfl, rfl, rfl, rfl⟩ <;>
    intro h <;>
    simp_all [llm.get_causallm_factory, llm.get_model_args_loader,
      llm.get_quant_args_loader, llm.get_dialog_factory,
      llm.register_causallm_factory, llm.register_model_args_loader,
      llm.register_quant_args_loader, llm.register_dialog_factory,
      llm.registry_update]

/-- Claim C8 witness: registering a causal-lm factory under a fresh name
in the empty registry stores it, so the getter returns it. -/
theorem llm.registry_first_registration_wins_witness :
    llm.get_causallm_factory "llama"
      (llm.register_causallm_factory "llama" (some 1)
        (llm.empty_registry (F := Nat) (A := Nat) (Q := Nat) (D := Nat))) =
      some 1 := by
  exact (llm.registry_first_registration_wins
    (llm.empty_registry (F := Nat) (A := Nat) (Q := Nat) (D := Nat))
    "llama" 1 none 0 none 0 none 0 none).2.1 rfl

/-- Claim C10: `SentencePieceTokenizer::encode` succeeds exactly when
the underlying processor succeeds, returning the processor's ids with
exactly one BOS id prepended at position 0 if and only if the tokenizer
was constructed with `prepend_bos = true`. -/
theorem llm.encode_prepends_bos (tk : llm.SentencePieceTokenizer)
    (text : String) :
    (tk.proc text = none → tk.encode text = none) ∧
    (∀ ids, tk.proc text = some ids →
      (tk.prepend_bos = true → tk.encode text = some (tk.bos_id :: ids)) ∧
      (tk.prepend_bos = false → tk.encode text = some ids)) := by
  unfold llm.SentencePieceTokenizer.encode
  refine ⟨fun h => by rw [h], ?_⟩
  intro ids h
  rw [h]
  cases hb : tk.prepend_bos <;> simp [hb]

/-- Claim C10 witness: a concrete tokenizer with `prepend_bos = true`
returns the BOS id followed by the processor output. -/
theorem llm.encode_prepends_bos_witness :
    llm.SentencePieceTokenizer.encode ⟨fun _ => some [5, 6], 1, true⟩ "hi" =
      some [1, 5, 6] := by
  exact ((llm.encode_prepends_bos ⟨fun _ => some [5, 6], 1, true⟩ "hi").2
    [5, 6] rfl).1 rfl

/-- A chunk of the flattening of uniformly-sized chunks is the
corresponding chunk. -/
theorem llm.chunk_flatten (d : Nat) (xs : List (List α))
    (hx : ∀ x ∈ xs, x.length = d) (k : Nat) :
    llm.chunk d xs.flatten k = xs.getD k [] := by
  induction xs generalizing k with
  | nil => simp [llm.chunk]
  | cons x xs ih =>
      have hxd : x.length = d := hx x (List.mem_cons_self x xs)
      cases k with
      | zero =>
          simp only [llm.chunk, Nat.zero_mul, List.drop_zero,
            List.flatten_cons, List.getD_cons_zero]
          exact List.take_left' hxd
      | succ k =>
          have h1 : llm.chunk d ((x :: xs).flatten) (k + 1) =
              llm.chunk d xs.flatten k := by
            simp only [llm.chunk, List.flatten_cons]
            rw [show (k + 1) * d = d + k * d by ring, ← List.drop_drop,
              List.drop_left' hxd]
          rw [h1, ih (fun y hy => hx y (List.mem_cons_of_mem x hy)),
            List.getD_cons_succ]

/-- Flattening all `m` chunks of a list of length `m * d` restores the
list. -/
theorem llm.flatten_chunks (d m : Nat) (t : List α) (h : t.length = m * d) :
    ((List.range m).map (llm.chunk d t)).flatten = t := by
  induction m generalizing t with
  | zero =>
      have ht : t = [] := List.eq_nil_of_length_eq_zero (by simpa using h)
      simp [ht]
  | succ m ih =>
      have hlen : (t.drop d).length = m * d := by
        rw [List.length_drop, h, Nat.succ_mul]
        omega
      rw [List.range_succ_eq_map, List.map_cons, List.map_map,
        List.flatten_cons]
      have h0 : llm.chunk d t 0 = t.take d := by simp [llm.chunk]
      have hsucc : (llm.chunk d t) ∘ Nat.succ = llm.chunk d (t.drop d) := by
        funext k
        simp only [Function.comp_apply, llm.chunk, List.drop_drop]
        rw [show (k + 1) * d = d + k * d by ring]
      rw [h0, hsucc, ih _ hlen, List.take_append_drop]

/-- A chunk entirely inside the list has length `d`. -/
theorem llm.length_chunk (d : Nat) (t : List α) (k : Nat)
    (h : k * d + d ≤ t.length) : (llm.chunk d t k).length = d := by
  simp only [llm.chunk, List.length_take, List.length_drop]
  omega

/-- Composing the two chunk-index permutations used by the MPT reshapes
is the identity. -/
theorem llm.pack_unpack_index {n j : Nat} (hj : j < 3 * n) :
    (((j % n) * 3 + j / n) % 3) * n + ((j % n) * 3 + j / n) / 3 = j := by
  have hn : 0 < n := by
    rcases Nat.eq_zero_or_pos n with h0 | h0
    · subst h0; omega
    · exact h0
  have ha : j / n < 3 := Nat.div_lt_of_lt_mul (by omega)
  have hmod : ((j % n) * 3 + j / n) % 3 = j / n := by
    rw [Nat.mul_comm (j % n) 3, Nat.mul_add_mod, Nat.mod_eq_of_lt ha]
  have hdiv : ((j % n) * 3 + j / n) / 3 = j % n := by
    rw [Nat.mul_comm (j % n) 3, Nat.mul_add_div (by omega),
      Nat.div_eq_of_lt ha, Nat.add_zero]
  rw [hmod, hdiv, Nat.mul_comm]
  exact Nat.div_add_mod j n

/-- Claim C7: composing the MPT after-sharding reshape
(`[n_heads, 3, ...]` back to `[3, n_heads, ...]`) with the
before-sharding reshape (`[3, n_heads, ...]` to `[n_heads, 3, ...]`)
yields the original tensor, for every flat tensor of the expected fused
size; `d = head_dim` covers the 1-D bias and `d = head_dim * hidden_size`
the row-major 2-D weight. -/
theorem llm.reshape_qkv_round_trip (n d : Nat) (t : List α)
    (h : t.length = 3 * n * d) :
    llm.reshape_qkv_after_sharding n d (llm.reshape_qkv_before_sharding n d t) = t := by
  unfold llm.reshape_qkv_after_sharding llm.reshape_qkv_before_sharding
  set B := (List.range (n * 3)).map (fun i => llm.chunk d t ((i % 3) * n + i / 3)) with hB
  have hxlen : ∀ x ∈ B, x.length = d := by
    intro x hx
    rw [hB] at hx
    obtain ⟨i, hi, rfl⟩ := List.mem_map.mp hx
    have hi' : i < n * 3 := List.mem_range.mp hi
    have h1 : i % 3 ≤ 2 := by omega
    have h2 : i / 3 < n := by omega
    apply llm.length_chunk
    have g1 : (i % 3) * n ≤ 2 * n := Nat.mul_le_mul_right n h1
    have hc1 : (i % 3) * n + i / 3 + 1 ≤ 3 * n := by omega
    calc ((i % 3) * n + i / 3) * d + d
        = ((i % 3) * n + i / 3 + 1) * d := by ring
      _ ≤ (3 * n) * d := Nat.mul_le_mul_right d hc1
      _ = t.length := h.symm
  have hpt : ∀ j ∈ List.range (3 * n),
      llm.chunk d B.flatten ((j % n) * 3 + j / n) = llm.chunk d t j := by
    intro j hj
    have hj' : j < 3 * n := List.mem_range.mp hj
    have hn : 0 < n := by omega
    have hm : (j % n) * 3 + j / n < n * 3 := by
      have g1 : j % n < n := Nat.mod_lt _ hn
      have g2 : j / n < 3 := Nat.div_lt_of_lt_mul (by omega)
      have g3 : (j % n) * 3 ≤ (n - 1) * 3 := Nat.mul_le_mul_right 3 (by omega)
      omega
    rw [llm.chunk_flatten d B hxlen, hB,
      List.getD_eq_getElem _ _ (by simpa using hm), List.getElem_map,
      List.getElem_range, llm.pack_unpack_index hj']
  rw [List.map_congr_left hpt]
  exact llm.flatten_chunks d (3 * n) t h

/-- Claim C7 witness: the round trip on a concrete fused tensor with two
heads and chunk size 1. -/
theorem llm.reshape_qkv_round_trip_witness :
    llm.reshape_qkv_after_sharding 2 1
      (llm.reshape_qkv_before_sharding 2 1 ([0, 1, 2, 3, 4, 5] : List Nat)) =
      [0, 1, 2, 3, 4, 5] := by
  exact llm.reshape_qkv_round_trip 2 1 [0, 1, 2, 3, 4, 5] (by decide)

/-- Claim C9: fused multi-prefix weight loading is all-or-nothing.
`load_weights` returns `false` and leaves both the shard list and the
registered weight unchanged while any per-prefix shard is undefined;
once every shard is present (and the sizes agree) the registered weight
becomes the dimension-0 concatenation of the shards and the shard list
is cleared; and `load_state_dict_fused` marks the layer loaded exactly
when the filled shard list has a shard for every prefix. -/
theorem llm.fused_load_all_or_nothing {α : Type}
    (weight_list : List (Option (List α))) (weight : List α)
    (sd : String → Option (List α)) (pfxs : List String)
    (st st' : llm.LinearLoadState α) (wl : List (Option (List α))) :
    (none ∈ weight_list →
      llm.load_weights weight_list weight = some (false, weight_list, weight)) ∧
    (weight_list.all Option.isSome →
      weight.length = ((weight_list.map (fun t => t.getD [])).flatten).length →
      llm.load_weights weight_list weight =
        some (true, [], (weight_list.map (fun t => t.getD [])).flatten)) ∧
    (st.is_loaded = false →
      llm.fill_weight_list sd pfxs
        (llm.resize_weight_list st.weight_list pfxs.length) = some wl →
      llm.load_state_dict_fused sd pfxs st = some st' →
      (st'.is_loaded = true ↔ wl.all Option.isSome)) := by
  refine ⟨?_, ?_, ?_⟩
  · intro h
    have hall : weight_list.all Option.isSome = false :=
      List.all_eq_false.mpr ⟨none, h, by simp⟩
    simp [llm.load_weights, hall]
  · intro hall hlen
    simp [llm.load_weights, hall, hlen]
  · intro h0 hfill hload
    unfold llm.load_state_dict_fused at hload
    rw [hfill] at hload
    dsimp only at hload
    by_cases hall : wl.all Option.isSome
    · unfold llm.load_weights at hload
      rw [if_pos hall] at hload
      by_cases hlen : st.weight.length =
          ((wl.map (fun t => t.getD [])).flatten).length
      · rw [if_pos hlen] at hload
        cases hload
        simp [h0, hall]
      · rw [if_neg hlen] at hload
        cases hload
    · unfold llm.load_weights at hload
      rw [if_neg hall] at hload
      cases hload
      simp [h0, hall]

/-- Claim C9 witness: concrete instances of all three branches — a shard
list with an undefined entry is returned unchanged with `false`; a
complete shard list produces the concatenated weight with the list
cleared; and a fused load over two prefixes whose shards are both in
the state dict marks the layer loaded. -/
theorem llm.fused_load_all_or_nothing_witness :
    (llm.load_weights [none] ([9] : List Nat) = some (false, [none], [9])) ∧
    (llm.load_weights [some [1, 2], some [3]] ([7, 7, 7] : List Nat) =
      some (true, [], [1, 2, 3])) ∧
    ((⟨[], [1, 2], true⟩ : llm.LinearLoadState Nat).is_loaded = true) := by
  refine ⟨?_, ?_, ?_⟩
  · exact (llm.fused_load_all_or_nothing [none] ([9] : List Nat)
      (fun _ => none) [] ⟨[], [], false⟩ ⟨[], [], false⟩ []).1 (by decide)
  · exact (llm.fused_load_all_or_nothing [some [1, 2], some [3]]
      ([7, 7, 7] : List Nat) (fun _ => none) [] ⟨[], [], false⟩
      ⟨[], [], false⟩ []).2.1 (by decide) (by decide)
  · exact (llm.fused_load_all_or_nothing [] ([] : List Nat)
      (fun s => if s = "q.weight" then some [1] else
        if s = "k.weight" then some [2] else none)
      ["q.", "k."] ⟨[], [7, 7], false⟩ ⟨[], [1, 2], true⟩
      [some [1], some [2]]).2.2 rfl (by decide) (by decide) |>.mpr (by decide)
